import Mathlib

/-!
Verification of the GS1-128 barcode parser and the retail-symbology checksum
validators of the barcode-scanner module.

The development shallowly embeds the two Python source files
`models/gs1_parser.py` and `models/product_barcode.py`.  Python strings are
modelled as `List Char`, Python floats as exact rationals, `datetime` objects
as a validated triple of integers, and fallible Python code (try/except)
as `Option`-returning functions.  Python's built-in `int(str)` is modelled by
`pyInt` (whitespace stripping, optional sign, digits with legal underscores);
its Unicode-digit acceptance outside the ASCII range is out of scope, matching
the spec's assumption of ASCII-range payload text.
-/

namespace Gs1

/-! ## Python string primitives -/

/-- Python `str.isspace` / `str.strip` whitespace for the Latin-1 range:
TAB..CR (9-13), FS..US (28-31), space (32), NEL (133), NBSP (160). -/
def isPyWs (c : Char) : Bool :=
  (9 ≤ c.toNat && c.toNat ≤ 13) || c.toNat == 32 ||
  (28 ≤ c.toNat && c.toNat ≤ 31) || c.toNat == 133 || c.toNat == 160

/-- Python `str.strip()` with no arguments. -/
def pyStrip (s : List Char) : List Char :=
  ((s.dropWhile isPyWs).reverse.dropWhile isPyWs).reverse

/-- ASCII decimal digit test; models Python `str.isdigit` restricted to the
ASCII range assumed by the spec for payload text. -/
def isAsciiDigit (c : Char) : Bool := 48 ≤ c.toNat && c.toNat ≤ 57

/-- Python `str.isdigit`: true iff nonempty and all digits. -/
def pyIsDigitStr (s : List Char) : Bool := !s.isEmpty && s.all isAsciiDigit

/-- Numeric value of an ASCII digit character. -/
def digitVal (c : Char) : Nat := c.toNat - 48

/-- Value of a digit string read in base 10. -/
def digitsToNat (s : List Char) : Nat := s.foldl (fun acc c => acc * 10 + digitVal c) 0

/-- After a leading digit, Python `int()` accepts digits with single
underscores placed between digits. -/
def digitsUnd : List Char → Bool
  | [] => true
  | c :: rest =>
    if c = '_' then
      match rest with
      | [] => false
      | c2 :: rest2 => isAsciiDigit c2 && digitsUnd rest2
    else isAsciiDigit c && digitsUnd rest

/-- Digit-group syntax of Python `int()` after sign removal: nonempty, starts
with a digit, underscores only between digits. -/
def pyDigitsOk : List Char → Bool
  | [] => false
  | c :: rest => isAsciiDigit c && digitsUnd rest

/-- Magnitude parsed by Python `int()` after sign removal. -/
def pyDigitsVal (s : List Char) : Option Nat :=
  if pyDigitsOk s then some (digitsToNat (s.filter (fun c => c != '_'))) else none

/-- Python `int(str)`: strip whitespace, optional sign, digit groups;
`none` models a raised `ValueError`. -/
def pyInt (s : List Char) : Option Int :=
  match pyStrip s with
  | [] => none
  | c :: rest =>
    if c = '+' then (pyDigitsVal rest).map (fun n => (n : Int))
    else if c = '-' then (pyDigitsVal rest).map (fun n => -(n : Int))
    else (pyDigitsVal (c :: rest)).map (fun n => (n : Int))

/-! ## Dates (`datetime` and `calendar.monthrange`) -/

/-- A `datetime.datetime` value at day granularity. -/
structure PyDate where
  year : Int
  month : Int
  day : Int
deriving DecidableEq, Repr

/-- Model of `calendar.isleap`. -/
def isleap (y : Int) : Bool := y % 4 == 0 && (y % 100 != 0 || y % 400 == 0)

/-- Number of days of a month (`calendar.monthrange(...)[1]` for months 1-12). -/
def daysInMonth (y m : Int) : Int :=
  if m == 2 then (if isleap y then 29 else 28)
  else if m == 4 || m == 6 || m == 9 || m == 11 then 30
  else 31

/-- Model of `calendar.monthrange(y, m)[1]`; `none` models the `IllegalMonthError`
(a `ValueError`) raised for a month outside 1..12. -/
def monthrangeDay (y m : Int) : Option Int :=
  if 1 ≤ m ∧ m ≤ 12 then some (daysInMonth y m) else none

/-- Model of `datetime(year, month, day)`; `none` models the `ValueError` raised on an
out-of-range component. -/
def mkDatetime (y m d : Int) : Option PyDate :=
  if 1 ≤ y ∧ y ≤ 9999 ∧ 1 ≤ m ∧ m ≤ 12 ∧ 1 ≤ d ∧ d ≤ daysInMonth y m
  then some ⟨y, m, d⟩ else none

/-- Model of `GS1Parser._parse_date`: YYMMDD with century pivot and day-00 sentinel. -/
def parseDate (s : List Char) : Option PyDate :=
  if s.isEmpty || s.length != 6 then none
  else
    match pyInt (s.take 2), pyInt ((s.drop 2).take 2), pyInt ((s.drop 4).take 2) with
    | some y0, some m0, some d0 =>
      let y := if y0 < 50 then y0 + 2000 else y0 + 1900
      if d0 = 0 then
        if m0 = 12 then mkDatetime y m0 31
        else
          match monthrangeDay y m0 with
          | some dd => mkDatetime y m0 dd
          | none => none
      else mkDatetime y m0 d0
    | _, _, _ => none

/-- Model of `GS1Parser._parse_decimal`: integer string with implied decimal places.
Python floats are modelled as exact rationals. -/
def parseDecimal (s : List Char) (dp : Nat) : Option ℚ :=
  if s.isEmpty then none
  else
    match pyInt s with
    | none => none
    | some v => if dp > 0 then some ((v : ℚ) / 10 ^ dp) else some ((v : ℚ))

/-! ## AI definition table -/

/-- Semantic type of an Application Identifier (the `type` key). -/
inductive AIType
  | gtin
  | gtin_contained
  | lot
  | serial
  | date
  | quantity
  | weight_kg
  | weight_lb
  | location
  | additional_id
  | customer_part
  | secondary_serial
  | ref_source
deriving DecidableEq, Repr

/-- One entry of `GS1Parser.AI_DEFINITIONS` (the `name` key is display-only). -/
structure AIDef where
  length : Option Nat
  max_length : Option Nat
  ai_type : AIType
  decimal : Option Nat
  ai_name : String
deriving DecidableEq, Repr

/-- Table `GS1Parser.AI_DEFINITIONS`, in source order. -/
def aiDefinitions : List (List Char × AIDef) :=
  [ ("01".toList, ⟨some 14, none, AIType.gtin, none, "GTIN"⟩),
    ("02".toList, ⟨some 14, none, AIType.gtin_contained, none, "GTIN of contained items"⟩),
    ("10".toList, ⟨none, some 20, AIType.lot, none, "Lot/Batch Number"⟩),
    ("21".toList, ⟨none, some 20, AIType.serial, none, "Serial Number"⟩),
    ("11".toList, ⟨some 6, none, AIType.date, none, "Production Date"⟩),
    ("13".toList, ⟨some 6, none, AIType.date, none, "Packaging Date"⟩),
    ("15".toList, ⟨some 6, none, AIType.date, none, "Best Before Date"⟩),
    ("17".toList, ⟨some 6, none, AIType.date, none, "Expiry Date"⟩),
    ("30".toList, ⟨none, some 8, AIType.quantity, none, "Item Count"⟩),
    ("37".toList, ⟨none, some 8, AIType.quantity, none, "Quantity"⟩),
    ("3100".toList, ⟨some 6, none, AIType.weight_kg, some 0, "Net Weight (kg)"⟩),
    ("3101".toList, ⟨some 6, none, AIType.weight_kg, some 1, "Net Weight (kg)"⟩),
    ("3102".toList, ⟨some 6, none, AIType.weight_kg, some 2, "Net Weight (kg)"⟩),
    ("3103".toList, ⟨some 6, none, AIType.weight_kg, some 3, "Net Weight (kg)"⟩),
    ("3104".toList, ⟨some 6, none, AIType.weight_kg, some 4, "Net Weight (kg)"⟩),
    ("3105".toList, ⟨some 6, none, AIType.weight_kg, some 5, "Net Weight (kg)"⟩),
    ("3200".toList, ⟨some 6, none, AIType.weight_lb, some 0, "Net Weight (lb)"⟩),
    ("3201".toList, ⟨some 6, none, AIType.weight_lb, some 1, "Net Weight (lb)"⟩),
    ("3202".toList, ⟨some 6, none, AIType.weight_lb, some 2, "Net Weight (lb)"⟩),
    ("3203".toList, ⟨some 6, none, AIType.weight_lb, some 3, "Net Weight (lb)"⟩),
    ("3204".toList, ⟨some 6, none, AIType.weight_lb, some 4, "Net Weight (lb)"⟩),
    ("3205".toList, ⟨some 6, none, AIType.weight_lb, some 5, "Net Weight (lb)"⟩),
    ("414".toList, ⟨some 13, none, AIType.location, none, "Location Code (GLN)"⟩),
    ("240".toList, ⟨none, some 30, AIType.additional_id, none, "Additional Product ID"⟩),
    ("241".toList, ⟨none, some 30, AIType.customer_part, none, "Customer Part Number"⟩),
    ("250".toList, ⟨none, some 30, AIType.secondary_serial, none, "Secondary Serial Number"⟩),
    ("251".toList, ⟨none, some 30, AIType.ref_source, none, "Reference to Source Entity"⟩) ]

/-- Lookup `AI_DEFINITIONS.get(code)`. -/
def lookupAI (k : List Char) : Option AIDef := List.lookup k aiDefinitions

/-- Group separator character (`GS = '\x1d'`). -/
def GS : Char := '\x1d'

/-- FNC1 stand-in character (`FNC1 = 'è'`). -/
def FNC1 : Char := 'è'

/-! ## AI extraction (`GS1Parser._extract_ai`) -/

/-- First index of `c` in a list, as an offset. -/
def findIdxFrom (c : Char) : List Char → Option Nat
  | [] => none
  | x :: xs => if x = c then some 0 else (findIdxFrom c xs).map (· + 1)

/-- Python `str.find(c, start)`: first index `≥ start` holding `c`
(`none` models the -1 result). -/
def pyFind (s : List Char) (c : Char) (start : Nat) : Option Nat :=
  (findIdxFrom c (s.drop start)).map (· + start)

/-- Python truthiness of the optional `length` entry (`if fixed_length:`). -/
def optTruthy : Option Nat → Bool
  | none => false
  | some n => n != 0

/-- Body of `_extract_ai` once a defined AI code has been matched at the
cursor: the fixed-length and variable-length value extraction. -/
def handleMatch (b : List Char) (startPos aiLength : Nat) (potential : List Char)
    (d : AIDef) : Option (List Char × List Char × Nat) :=
  let remaining := b.drop startPos
  if optTruthy d.length then
    let n := d.length.getD 0
    if remaining.length < aiLength + n then none
    else some (potential, (remaining.take (aiLength + n)).drop aiLength,
               startPos + aiLength + n)
  else
    let m := d.max_length.getD 30
    let valueEnd :=
      match pyFind remaining GS aiLength with
      | none => min (aiLength + m) remaining.length
      | some f => min f (aiLength + m)
    let value := (remaining.take valueEnd).drop aiLength
    let newPos0 := startPos + valueEnd
    if (b.drop newPos0).head? = some GS then some (potential, value, newPos0 + 1)
    else some (potential, value, newPos0)

/-- One iteration of the `for ai_length in [4, 3, 2]` loop of `_extract_ai`:
outer `none` models `continue`, `some r` models `return r` where an inner
`none` is the `(None, None, start_pos)` abort. -/
def tryAILen (b : List Char) (startPos aiLength : Nat) :
    Option (Option (List Char × List Char × Nat)) :=
  let remaining := b.drop startPos
  if remaining.length < aiLength then none
  else
    match lookupAI (remaining.take aiLength) with
    | none => none
    | some d => some (handleMatch b startPos aiLength (remaining.take aiLength) d)

/-- Model of `GS1Parser._extract_ai`; `none` is the `(None, None, start_pos)` result. -/
def extractAI (b : List Char) (startPos : Nat) : Option (List Char × List Char × Nat) :=
  match tryAILen b startPos 4 with
  | some r => r
  | none =>
    match tryAILen b startPos 3 with
    | some r => r
    | none =>
      match tryAILen b startPos 2 with
      | some r => r
      | none => none

/-! ## The parse loop (`GS1Parser.parse`) -/

/-- The result dict built by `GS1Parser.parse`. -/
structure ParseResult where
  gtin : Option (List Char) := none
  lot : Option (List Char) := none
  serial : Option (List Char) := none
  expiry : Option PyDate := none
  expiry_str : Option (List Char) := none
  production_date : Option PyDate := none
  best_before : Option PyDate := none
  weight_kg : Option ℚ := none
  weight_lb : Option ℚ := none
  quantity : Option Int := none
  location : Option (List Char) := none
  raw_ais : List (List Char × List Char) := []
  is_gs1 : Bool := false
deriving DecidableEq, Repr

/-- The all-empty result dict `parse` starts from. -/
def defaultResult : ParseResult := {}

/-- Python dict assignment `m[k] = v`: updates in place keeping insertion
order, appends a fresh key. -/
def dictInsert (m : List (List Char × List Char)) (k v : List Char) :
    List (List Char × List Char) :=
  if m.any (fun p => p.1 == k) then m.map (fun p => if p.1 == k then (k, v) else p)
  else m ++ [(k, v)]

/-- Body of the `while` loop of `parse` after a successful `_extract_ai`:
records the raw AI, sets `is_gs1`, and routes the value by semantic type. -/
def applyAI (res : ParseResult) (ai v : List Char) : ParseResult :=
  let res1 := { res with raw_ais := dictInsert res.raw_ais ai v, is_gs1 := true }
  match lookupAI ai with
  | none => res1
  | some d =>
    match d.ai_type with
    | AIType.gtin => { res1 with gtin := some v }
    | AIType.lot => { res1 with lot := some v }
    | AIType.serial => { res1 with serial := some v }
    | AIType.date =>
      let dobj := parseDate v
      if ai = "17".toList then { res1 with expiry := dobj, expiry_str := some v }
      else if ai = "11".toList then { res1 with production_date := dobj }
      else if ai = "15".toList then { res1 with best_before := dobj }
      else res1
    | AIType.weight_kg => { res1 with weight_kg := parseDecimal v (d.decimal.getD 0) }
    | AIType.weight_lb => { res1 with weight_lb := parseDecimal v (d.decimal.getD 0) }
    | AIType.quantity =>
      match pyInt v with
      | some n => { res1 with quantity := some n }
      | none => res1
    | AIType.location => { res1 with location := some v }
    | _ => res1

theorem pyFind_ge {s : List Char} {c : Char} {start f : Nat}
    (h : pyFind s c start = some f) : start ≤ f := by
  unfold pyFind at h
  obtain ⟨w, -, hw⟩ := Option.map_eq_some'.mp h
  omega

theorem handleMatch_some_lt {b : List Char} {startPos aiLength : Nat}
    {potential ai v : List Char} {np : Nat} {d : AIDef}
    (hl : 0 < aiLength) (hlen : aiLength ≤ (b.drop startPos).length)
    (h : handleMatch b startPos aiLength potential d = some (ai, v, np)) :
    startPos < np := by
  simp only [handleMatch] at h
  by_cases ht : optTruthy d.length = true
  · rw [if_pos ht] at h
    by_cases hn : (b.drop startPos).length < aiLength + d.length.getD 0
    · rw [if_pos hn] at h
      exact Option.noConfusion h
    · rw [if_neg hn] at h
      simp only [Option.some.injEq, Prod.mk.injEq] at h
      obtain ⟨-, -, h3⟩ := h
      omega
  · rw [if_neg ht] at h
    set ve := (match pyFind (b.drop startPos) GS aiLength with
      | none => min (aiLength + d.max_length.getD 30) (b.drop startPos).length
      | some f => min f (aiLength + d.max_length.getD 30)) with hve
    have hge : aiLength ≤ ve := by
      rw [hve]
      rcases hpf : pyFind (b.drop startPos) GS aiLength with _ | f
      · show aiLength ≤ (aiLength + d.max_length.getD 30) ⊓ (b.drop startPos).length
        omega
      · have := pyFind_ge hpf
        show aiLength ≤ f ⊓ (aiLength + d.max_length.getD 30)
        omega
    split at h <;>
      (simp only [Option.some.injEq, Prod.mk.injEq] at h;
       obtain ⟨-, -, h3⟩ := h; omega)

theorem tryAILen_some_lt {b : List Char} {startPos aiLength : Nat}
    {ai v : List Char} {np : Nat}
    (hl : 0 < aiLength)
    (h : tryAILen b startPos aiLength = some (some (ai, v, np))) :
    startPos < np := by
  simp only [tryAILen] at h
  by_cases hs : (b.drop startPos).length < aiLength
  · rw [if_pos hs] at h
    exact Option.noConfusion h
  · rw [if_neg hs] at h
    rcases hlk : lookupAI ((b.drop startPos).take aiLength) with _ | d
    · rw [hlk] at h
      exact Option.noConfusion h
    · rw [hlk] at h
      have h2 : handleMatch b startPos aiLength ((b.drop startPos).take aiLength) d
          = some (ai, v, np) := by
        injection h
      exact handleMatch_some_lt hl (by omega) h2

theorem extractAI_some_lt {b : List Char} {startPos : Nat}
    {ai v : List Char} {np : Nat}
    (h : extractAI b startPos = some (ai, v, np)) : startPos < np := by
  unfold extractAI at h
  rcases h4 : tryAILen b startPos 4 with _ | r4
  · rw [h4] at h
    rcases h3 : tryAILen b startPos 3 with _ | r3
    · rw [h3] at h
      rcases h2 : tryAILen b startPos 2 with _ | r2
      · rw [h2] at h
        exact Option.noConfusion h
      · rw [h2] at h
        change r2 = some (ai, v, np) at h
        subst h
        exact tryAILen_some_lt (by omega) h2
    · rw [h3] at h
      change r3 = some (ai, v, np) at h
      subst h
      exact tryAILen_some_lt (by omega) h3
  · rw [h4] at h
    change r4 = some (ai, v, np) at h
    subst h
    exact tryAILen_some_lt (by omega) h4

/-- The `while pos < len(barcode)` loop of `GS1Parser.parse`. -/
def parseLoop (b : List Char) (pos : Nat) (res : ParseResult) : ParseResult :=
  if h : pos < b.length then
    match hm : extractAI b pos with
    | none => res
    | some (ai, v, np) => parseLoop b np (applyAI res ai v)
  else res
termination_by b.length - pos
decreasing_by
  have := extractAI_some_lt hm
  omega

/-- The FNC1 / whitespace / symbology-identifier cleaning at the top of
`GS1Parser.parse`. -/
def cleanBarcode (s : List Char) : List Char :=
  let b1 := pyStrip (s.filter (fun c => c != FNC1))
  if b1.take 3 = "]C1".toList then b1.drop 3
  else if b1.take 3 = "]e0".toList then b1.drop 3
  else b1

/-- Model of `GS1Parser.parse`.  Total by construction: every input yields a result
record, modelling the never-raises contract. -/
def parse (s : List Char) : ParseResult :=
  if s.isEmpty then defaultResult
  else parseLoop (cleanBarcode s) 0 defaultResult

/-! ## Checksum validators (`product_barcode.py`) -/

/-- Weighted sum of `ProductBarcode._validate_ean_checksum`: even 0-indexed
positions weigh 1, odd positions weigh 3. -/
def eanSum (digits : List Nat) : Nat :=
  digits.enum.foldl (fun acc p => if p.1 % 2 = 0 then acc + p.2 else acc + p.2 * 3) 0

/-- Weighted sum of `ProductBarcode._validate_upc_checksum`: even 0-indexed
positions weigh 3, odd positions weigh 1. -/
def upcSum (digits : List Nat) : Nat :=
  digits.enum.foldl (fun acc p => if p.1 % 2 = 0 then acc + p.2 * 3 else acc + p.2) 0

/-- Check digit the EAN algorithm derives from all digits but the last. -/
def eanCheckDigit (digits : List Nat) : Nat := (10 - eanSum digits.dropLast % 10) % 10

/-- Check digit the UPC-A algorithm derives from all digits but the last. -/
def upcCheckDigit (digits : List Nat) : Nat := (10 - upcSum digits.dropLast % 10) % 10

/-- Model of `ProductBarcode._validate_ean_checksum`. -/
def validateEanChecksum (s : List Char) : Bool :=
  if pyIsDigitStr s then
    let digits := s.map digitVal
    eanCheckDigit digits == digits.getLastD 0
  else false

/-- Model of `ProductBarcode._validate_upc_checksum`. -/
def validateUpcChecksum (s : List Char) : Bool :=
  if pyIsDigitStr s && s.length == 12 then
    let digits := s.map digitVal
    upcCheckDigit digits == digits.getLastD 0
  else false

/-- The `barcode_type` selection values whose formats are validated. -/
inductive BType
  | ean13
  | ean8
  | upca
  | upce
  | code128
  | code39
  | qr
  | gs1_128
  | internal
deriving DecidableEq, Repr

/-- Human-readable symbology name as it appears in the error messages. -/
def symName : BType → List Char
  | BType.ean13 => "EAN-13".toList
  | BType.ean8 => "EAN-8".toList
  | BType.upca => "UPC-A".toList
  | BType.upce => "UPC-E".toList
  | BType.code128 => "Code 128".toList
  | BType.code39 => "Code 39".toList
  | BType.qr => "QR Code".toList
  | BType.gs1_128 => "GS1-128".toList
  | BType.internal => "Internal Reference".toList

/-- Message of a raised `ValidationError`: template text followed by the
offending value (the `%s` interpolation). -/
def vErr (template : String) (b : List Char) : List Char := template.toList ++ b

/-- Model of `ProductBarcode._check_barcode_format` for one record: `some msg` models a
raised `ValidationError(msg)`, `none` models passing the constraint. -/
def checkBarcodeFormat (t : BType) (name : List Char) : Option (List Char) :=
  if name.isEmpty then none
  else
    let barcode := pyStrip name
    match t with
    | BType.ean13 =>
      if !pyIsDigitStr barcode || barcode.length ≠ 13 then
        some (vErr "EAN-13 barcode must be exactly 13 digits: " barcode)
      else if !validateEanChecksum barcode then
        some (vErr "Invalid EAN-13 checksum for barcode: " barcode)
      else none
    | BType.ean8 =>
      if !pyIsDigitStr barcode || barcode.length ≠ 8 then
        some (vErr "EAN-8 barcode must be exactly 8 digits: " barcode)
      else if !validateEanChecksum barcode then
        some (vErr "Invalid EAN-8 checksum for barcode: " barcode)
      else none
    | BType.upca =>
      if !pyIsDigitStr barcode || barcode.length ≠ 12 then
        some (vErr "UPC-A barcode must be exactly 12 digits: " barcode)
      else if !validateUpcChecksum barcode then
        some (vErr "Invalid UPC-A checksum for barcode: " barcode)
      else none
    | BType.upce =>
      if !pyIsDigitStr barcode || barcode.length ≠ 8 then
        some (vErr "UPC-E barcode must be exactly 8 digits: " barcode)
      else none
    | _ => none

/-! ## Specification-side definitions used to state the claims -/

/-- Date decoding as the specification words it: century pivot 00-49 into
2000-2049 and 50-99 into 1950-1999; day 00 is a sentinel for the last day of
the decoded month (December hardcoded to 31, any other valid month to its
actual last day, leap years included); any month/day combination invalid
after the adjustment yields no date. -/
def dateSpec (Y M D : Nat) : Option PyDate :=
  let y : Int := if Y < 50 then (Y : Int) + 2000 else (Y : Int) + 1900
  if D = 0 then
    if M = 12 then some ⟨y, 12, 31⟩
    else if 1 ≤ M ∧ M ≤ 12 then some ⟨y, (M : Int), daysInMonth y (M : Int)⟩
    else none
  else
    if 1 ≤ (M : Int) ∧ (M : Int) ≤ 12 ∧ (D : Int) ≤ daysInMonth y (M : Int) then
      some ⟨y, (M : Int), (D : Int)⟩
    else none

/-- A string value not containing the FNC1 stand-in character (the claim-side
predicate for claim C10). -/
def cleanStr (v : List Char) : Bool := !(v.contains FNC1)

/-- Every string-valued component of a parse result (raw AI values and the
string scalar fields) is free of the FNC1 stand-in character. -/
def noFnc1Result (res : ParseResult) : Bool :=
  res.raw_ais.all (fun kv => cleanStr kv.2) && res.gtin.all cleanStr &&
  res.lot.all cleanStr && res.serial.all cleanStr && res.location.all cleanStr &&
  res.expiry_str.all cleanStr

/-! ## Helper lemmas about the extraction machinery -/

theorem tryAILen_none_iff {b : List Char} {pos l : Nat} :
    tryAILen b pos l = none ↔
      ((b.drop pos).length < l ∨ lookupAI ((b.drop pos).take l) = none) := by
  unfold tryAILen
  by_cases hlen : (b.drop pos).length < l
  · rw [if_pos hlen]
    exact iff_of_true rfl (Or.inl hlen)
  · rw [if_neg hlen]
    rcases hlk : lookupAI ((b.drop pos).take l) with _ | d
    · exact iff_of_true rfl (Or.inr rfl)
    · constructor
      · intro hco
        exact Option.noConfusion hco
      · rintro (hc | hc)
        · exact absurd hc hlen
        · exact Option.noConfusion hc

theorem tryAILen_some_of_lookup {b : List Char} {pos l : Nat} {d : AIDef}
    (hlen : ¬((b.drop pos).length < l))
    (hlk : lookupAI ((b.drop pos).take l) = some d) :
    tryAILen b pos l = some (handleMatch b pos l ((b.drop pos).take l) d) := by
  unfold tryAILen
  rw [if_neg hlen, hlk]

theorem extractAI_of_try4 {b : List Char} {pos : Nat}
    {r : Option (List Char × List Char × Nat)}
    (h : tryAILen b pos 4 = some r) : extractAI b pos = r := by
  unfold extractAI
  rw [h]

theorem extractAI_of_try3 {b : List Char} {pos : Nat}
    {r : Option (List Char × List Char × Nat)}
    (h4 : tryAILen b pos 4 = none) (h3 : tryAILen b pos 3 = some r) :
    extractAI b pos = r := by
  unfold extractAI
  rw [h4, h3]

theorem extractAI_of_try2 {b : List Char} {pos : Nat}
    {r : Option (List Char × List Char × Nat)}
    (h4 : tryAILen b pos 4 = none) (h3 : tryAILen b pos 3 = none)
    (h2 : tryAILen b pos 2 = some r) : extractAI b pos = r := by
  unfold extractAI
  rw [h4, h3, h2]

theorem extractAI_none_of_tries {b : List Char} {pos : Nat}
    (h4 : tryAILen b pos 4 = none) (h3 : tryAILen b pos 3 = none)
    (h2 : tryAILen b pos 2 = none) : extractAI b pos = none := by
  unfold extractAI
  rw [h4, h3, h2]

theorem extractAI_shape {b : List Char} {pos : Nat}
    {t : List Char × List Char × Nat}
    (h : extractAI b pos = some t) :
    ∃ l, (l = 4 ∨ l = 3 ∨ l = 2) ∧ ¬((b.drop pos).length < l) ∧
      ∃ d, lookupAI ((b.drop pos).take l) = some d ∧
        handleMatch b pos l ((b.drop pos).take l) d = some t := by
  have shape1 : ∀ l : Nat, ∀ r, tryAILen b pos l = some r →
      ¬((b.drop pos).length < l) ∧
      ∃ d, lookupAI ((b.drop pos).take l) = some d ∧
        handleMatch b pos l ((b.drop pos).take l) d = r := by
    intro l r hr
    unfold tryAILen at hr
    by_cases hlen : (b.drop pos).length < l
    · rw [if_pos hlen] at hr
      exact Option.noConfusion hr
    · rw [if_neg hlen] at hr
      rcases hlk : lookupAI ((b.drop pos).take l) with _ | d
      · rw [hlk] at hr
        exact Option.noConfusion hr
      · rw [hlk] at hr
        exact ⟨hlen, d, rfl, by injection hr⟩
  unfold extractAI at h
  rcases h4 : tryAILen b pos 4 with _ | r4
  · rw [h4] at h
    rcases h3 : tryAILen b pos 3 with _ | r3
    · rw [h3] at h
      rcases h2 : tryAILen b pos 2 with _ | r2
      · rw [h2] at h
        exact Option.noConfusion h
      · rw [h2] at h
        change r2 = some t at h
        subst h
        obtain ⟨hlen, d, hlk, hhm⟩ := shape1 2 _ h2
        exact ⟨2, by omega, hlen, d, hlk, hhm⟩
    · rw [h3] at h
      change r3 = some t at h
      subst h
      obtain ⟨hlen, d, hlk, hhm⟩ := shape1 3 _ h3
      exact ⟨3, by omega, hlen, d, hlk, hhm⟩
  · rw [h4] at h
    change r4 = some t at h
    subst h
    obtain ⟨hlen, d, hlk, hhm⟩ := shape1 4 _ h4
    exact ⟨4, by omega, hlen, d, hlk, hhm⟩

theorem handleMatch_fst {b : List Char} {pos l : Nat} {p ai v : List Char}
    {np : Nat} {d : AIDef}
    (h : handleMatch b pos l p d = some (ai, v, np)) : ai = p := by
  simp only [handleMatch] at h
  split at h
  · split at h
    · exact Option.noConfusion h
    · simp only [Option.some.injEq, Prod.mk.injEq] at h
      exact h.1.symm
  · split at h <;>
      (simp only [Option.some.injEq, Prod.mk.injEq] at h; exact h.1.symm)

theorem parseLoop_of_none {b : List Char} {pos : Nat} {res : ParseResult}
    (h : extractAI b pos = none) : parseLoop b pos res = res := by
  rw [parseLoop]
  split
  · rw [h]
  · rfl

theorem parseLoop_of_oob {b : List Char} {pos : Nat} {res : ParseResult}
    (h : ¬(pos < b.length)) : parseLoop b pos res = res := by
  rw [parseLoop]
  rw [dif_neg h]

theorem parseLoop_step {b : List Char} {pos : Nat} {res : ParseResult}
    {ai v : List Char} {np : Nat}
    (hpos : pos < b.length) (h : extractAI b pos = some (ai, v, np)) :
    parseLoop b pos res = parseLoop b np (applyAI res ai v) := by
  rw [parseLoop]
  rw [dif_pos hpos, h]

theorem findIdxFrom_none {c : Char} {t : List Char}
    (h : findIdxFrom c t = none) :
    t.takeWhile (fun x => x != c) = t := by
  induction t with
  | nil => rfl
  | cons x xs ih =>
    unfold findIdxFrom at h
    by_cases hx : x = c
    · rw [if_pos hx] at h
      exact Option.noConfusion h
    · rw [if_neg hx] at h
      have hxs : findIdxFrom c xs = none := by
        rcases hfi : findIdxFrom c xs with _ | f
        · rfl
        · rw [hfi] at h
          exact Option.noConfusion h
      rw [List.takeWhile_cons_of_pos (by simp [bne_iff_ne, hx])]
      rw [ih hxs]

theorem findIdxFrom_some {c : Char} {t : List Char} {f : Nat}
    (h : findIdxFrom c t = some f) :
    t.takeWhile (fun x => x != c) = t.take f ∧ f < t.length ∧
      (t.drop f).head? = some c := by
  induction t generalizing f with
  | nil => exact Option.noConfusion h
  | cons x xs ih =>
    unfold findIdxFrom at h
    by_cases hx : x = c
    · rw [if_pos hx] at h
      have hf : 0 = f := by injection h
      subst hf
      refine ⟨?_, by simp, by simp [hx]⟩
      rw [List.takeWhile_cons_of_neg (by simp [bne_iff_ne, hx])]
      rfl
    · rw [if_neg hx] at h
      obtain ⟨f', hf', rfl⟩ := Option.map_eq_some'.mp h
      obtain ⟨h1, h2, h3⟩ := ih hf'
      refine ⟨?_, by simp [Nat.succ_lt_succ_iff, h2], ?_⟩
      · rw [List.takeWhile_cons_of_pos (by simp [bne_iff_ne, hx])]
        rw [h1]
        rfl
      · show ((x :: xs).drop (f' + 1)).head? = some c
        rw [List.drop_succ_cons]
        exact h3

theorem validateEan_iff {s : List Char} :
    validateEanChecksum s = true ↔
      (pyIsDigitStr s = true ∧
       eanCheckDigit (s.map digitVal) = (s.map digitVal).getLastD 0) := by
  unfold validateEanChecksum
  by_cases hd : pyIsDigitStr s = true
  · rw [if_pos hd]
    show (eanCheckDigit (s.map digitVal) == (s.map digitVal).getLastD 0) = true ↔ _
    simp [hd, beq_iff_eq]
  · rw [if_neg hd]
    simp [hd]

theorem validateUpc_iff {s : List Char} :
    validateUpcChecksum s = true ↔
      (pyIsDigitStr s = true ∧ s.length = 12 ∧
       upcCheckDigit (s.map digitVal) = (s.map digitVal).getLastD 0) := by
  unfold validateUpcChecksum
  by_cases hd : (pyIsDigitStr s && s.length == 12) = true
  · rw [if_pos hd]
    show (upcCheckDigit (s.map digitVal) == (s.map digitVal).getLastD 0) = true ↔ _
    simp only [Bool.and_eq_true, beq_iff_eq] at hd
    simp [hd, beq_iff_eq]
  · rw [if_neg hd]
    simp only [Bool.and_eq_true, beq_iff_eq] at hd
    constructor
    · intro hf
      exact absurd hf (by simp)
    · rintro ⟨h1, h2, -⟩
      exact absurd ⟨h1, h2⟩ hd

theorem isInfixAppendRight {a t : List Char} (h : a <:+: t) (b : List Char) :
    a <:+: t ++ b := by
  obtain ⟨u, w, huw⟩ := h
  exact ⟨u, w ++ b, by rw [← huw]; simp⟩

theorem isEmpty_false_of_ne_nil {s : List Char} (hs : s ≠ []) :
    s.isEmpty = false := by
  cases s with
  | nil => exact absurd rfl hs
  | cons a l => rfl

theorem isPyWs_of_digit_false {c : Char} (h : isAsciiDigit c = true) :
    isPyWs c = false := by
  simp only [isAsciiDigit, Bool.and_eq_true, decide_eq_true_eq] at h
  have hne : ¬(isPyWs c = true) := by
    simp only [isPyWs, Bool.or_eq_true, Bool.and_eq_true, decide_eq_true_eq,
      beq_iff_eq]
    omega
  exact Bool.eq_false_iff.mpr hne

theorem digitVal_le_nine {c : Char} (h : isAsciiDigit c = true) :
    digitVal c ≤ 9 := by
  simp only [isAsciiDigit, Bool.and_eq_true, decide_eq_true_eq] at h
  unfold digitVal
  omega

theorem pyStrip_two_digits {a b : Char} (ha : isAsciiDigit a = true)
    (hb : isAsciiDigit b = true) : pyStrip [a, b] = [a, b] := by
  unfold pyStrip
  rw [List.dropWhile_cons_of_neg (by simp [isPyWs_of_digit_false ha])]
  show ([a, b].reverse.dropWhile isPyWs).reverse = [a, b]
  rw [show [a, b].reverse = [b, a] from rfl]
  rw [List.dropWhile_cons_of_neg (by simp [isPyWs_of_digit_false hb])]
  rfl

theorem pyInt_two_digits {a b : Char} (ha : isAsciiDigit a = true)
    (hb : isAsciiDigit b = true) :
    pyInt [a, b] = some (((10 * digitVal a + digitVal b : Nat) : Int)) := by
  have ha' := ha
  have hb' := hb
  simp only [isAsciiDigit, Bool.and_eq_true, decide_eq_true_eq] at ha' hb'
  unfold pyInt
  rw [pyStrip_two_digits ha hb]
  show (if a = '+' then (pyDigitsVal [b]).map (fun n => (n : Int))
        else if a = '-' then (pyDigitsVal [b]).map (fun n => -(n : Int))
        else (pyDigitsVal (a :: [b])).map (fun n => (n : Int))) = _
  have hne1 : a ≠ '+' := by
    intro he
    rw [he] at ha'
    have h43 : ('+').toNat = 43 := rfl
    omega
  have hne2 : a ≠ '-' := by
    intro he
    rw [he] at ha'
    have h45 : ('-').toNat = 45 := rfl
    omega
  rw [if_neg hne1, if_neg hne2]
  have hbu : b ≠ '_' := by
    intro he
    rw [he] at hb'
    have h95 : ('_').toNat = 95 := rfl
    omega
  have hau : a ≠ '_' := by
    intro he
    rw [he] at ha'
    have h95 : ('_').toNat = 95 := rfl
    omega
  unfold pyDigitsVal
  have hok : pyDigitsOk [a, b] = true := by
    show (isAsciiDigit a && digitsUnd [b]) = true
    rw [ha]
    show (true && digitsUnd [b]) = true
    unfold digitsUnd
    rw [if_neg hbu, hb]
    rfl
  rw [if_pos hok]
  have hfil : [a, b].filter (fun c => c != '_') = [a, b] := by
    rw [List.filter_cons_of_pos (by simp [bne_iff_ne, hau]),
        List.filter_cons_of_pos (by simp [bne_iff_ne, hbu])]
    rfl
  rw [hfil]
  show some ((digitsToNat [a, b] : Nat) : Int) = _
  have hdt : digitsToNat [a, b] = 10 * digitVal a + digitVal b := by
    show (0 * 10 + digitVal a) * 10 + digitVal b = _
    omega
  rw [hdt]

theorem daysInMonth_bounds (y m : Int) :
    28 ≤ daysInMonth y m ∧ daysInMonth y m ≤ 31 := by
  unfold daysInMonth
  by_cases h2 : (m == 2) = true
  · rw [if_pos h2]
    by_cases hl : isleap y = true
    · rw [if_pos hl]
      omega
    · rw [if_neg hl]
      omega
  · rw [if_neg h2]
    by_cases h4 : (m == 4 || m == 6 || m == 9 || m == 11) = true
    · rw [if_pos h4]
      omega
    · rw [if_neg h4]
      omega

theorem daysInMonth_twelve (y : Int) : daysInMonth y 12 = 31 := by
  unfold daysInMonth
  rw [if_neg (by decide), if_neg (by decide)]

theorem parseDate_core (Y M D : Nat) (hY : Y ≤ 99) :
    (if (D : Int) = 0 then
       if (M : Int) = 12 then
         mkDatetime (if (Y : Int) < 50 then (Y : Int) + 2000 else (Y : Int) + 1900)
           (M : Int) 31
       else
         match monthrangeDay
             (if (Y : Int) < 50 then (Y : Int) + 2000 else (Y : Int) + 1900)
             (M : Int) with
         | some dd =>
             mkDatetime
               (if (Y : Int) < 50 then (Y : Int) + 2000 else (Y : Int) + 1900)
               (M : Int) dd
         | none => none
     else
       mkDatetime (if (Y : Int) < 50 then (Y : Int) + 2000 else (Y : Int) + 1900)
         (M : Int) (D : Int)) = dateSpec Y M D := by
  have hyy : (if (Y : Int) < 50 then (Y : Int) + 2000 else (Y : Int) + 1900)
      = (if Y < 50 then (Y : Int) + 2000 else (Y : Int) + 1900) := by
    by_cases hy : Y < 50
    · rw [if_pos hy, if_pos (by exact_mod_cast hy)]
    · rw [if_neg hy, if_neg (show ¬((Y : Int) < 50) by exact_mod_cast hy)]
  rw [hyy]
  simp only [dateSpec]
  set yv := if Y < 50 then (Y : Int) + 2000 else (Y : Int) + 1900 with hyv
  have hyb : 1900 ≤ yv ∧ yv ≤ 2049 := by
    rw [hyv]
    by_cases hy : Y < 50
    · rw [if_pos hy]
      omega
    · rw [if_neg hy]
      omega
  by_cases hD : D = 0
  · rw [if_pos (show (D : Int) = 0 by exact_mod_cast hD), if_pos hD]
    by_cases hM : M = 12
    · rw [if_pos (show (M : Int) = 12 by exact_mod_cast hM), if_pos hM]
      have hM12 : ((M : Nat) : Int) = 12 := by exact_mod_cast hM
      rw [hM12]
      unfold mkDatetime
      rw [if_pos ⟨by omega, by omega, by omega, by omega, by omega,
        by rw [daysInMonth_twelve]⟩]
    · rw [if_neg (show ¬((M : Int) = 12) by exact_mod_cast hM), if_neg hM]
      by_cases hMr : 1 ≤ M ∧ M ≤ 12
      · rw [if_pos hMr]
        have hmr : monthrangeDay yv ((M : Nat) : Int)
            = some (daysInMonth yv ((M : Nat) : Int)) := by
          unfold monthrangeDay
          rw [if_pos ⟨by exact_mod_cast hMr.1, by exact_mod_cast hMr.2⟩]
        rw [hmr]
        show mkDatetime yv ((M : Nat) : Int) (daysInMonth yv ((M : Nat) : Int)) = _
        unfold mkDatetime
        have hdb := daysInMonth_bounds yv ((M : Nat) : Int)
        rw [if_pos ⟨by omega, by omega, by exact_mod_cast hMr.1,
          by exact_mod_cast hMr.2, by omega, le_refl _⟩]
      · rw [if_neg hMr]
        have hmr : monthrangeDay yv ((M : Nat) : Int) = none := by
          unfold monthrangeDay
          rw [if_neg (by omega)]
        rw [hmr]
  · rw [if_neg (show ¬((D : Int) = 0) by omega), if_neg hD]
    by_cases hC : 1 ≤ (M : Int) ∧ (M : Int) ≤ 12 ∧
        (D : Int) ≤ daysInMonth yv (M : Int)
    · rw [if_pos hC]
      unfold mkDatetime
      rw [if_pos ⟨by omega, by omega, hC.1, hC.2.1, by omega, hC.2.2⟩]
    · rw [if_neg hC]
      unfold mkDatetime
      rw [if_neg (by
        rintro ⟨-, -, k3, k4, -, k6⟩
        exact hC ⟨k3, k4, k6⟩)]

/-! ## Claim theorems -/

theorem dictInsert_all {m : List (List Char × List Char)} {k v : List Char}
    {pr : List Char × List Char → Bool}
    (hm : m.all pr = true) (hv : pr (k, v) = true) :
    (dictInsert m k v).all pr = true := by
  unfold dictInsert
  by_cases hex : m.any (fun q => q.1 == k) = true
  · rw [if_pos hex]
    rw [List.all_eq_true] at hm ⊢
    intro x hx
    rw [List.mem_map] at hx
    obtain ⟨q, hq, rfl⟩ := hx
    by_cases hqk : (q.1 == k) = true
    · rw [if_pos hqk]
      exact hv
    · rw [if_neg hqk]
      exact hm q hq
  · rw [if_neg hex]
    rw [List.all_eq_true] at hm ⊢
    intro x hx
    rcases List.mem_append.mp hx with hx1 | hx2
    · exact hm x hx1
    · rw [List.mem_singleton] at hx2
      subst hx2
      exact hv

theorem extractAI_value_subset {b : List Char} {pos : Nat} {ai v : List Char}
    {np : Nat} (h : extractAI b pos = some (ai, v, np)) :
    ∀ c, c ∈ v → c ∈ b := by
  obtain ⟨l, -, -, d, -, hhm⟩ := extractAI_shape h
  intro c hc
  simp only [handleMatch] at hhm
  split at hhm
  · split at hhm
    · exact absurd hhm (by simp)
    · simp only [Option.some.injEq, Prod.mk.injEq] at hhm
      obtain ⟨-, h2, -⟩ := hhm
      rw [← h2] at hc
      exact List.mem_of_mem_drop (List.mem_of_mem_take (List.mem_of_mem_drop hc))
  · split at hhm <;>
      (simp only [Option.some.injEq, Prod.mk.injEq] at hhm;
       obtain ⟨-, h2, -⟩ := hhm;
       rw [← h2] at hc;
       exact List.mem_of_mem_drop (List.mem_of_mem_take (List.mem_of_mem_drop hc)))

theorem pyStrip_subset {s : List Char} : ∀ c, c ∈ pyStrip s → c ∈ s := by
  intro c hc
  unfold pyStrip at hc
  rw [List.mem_reverse] at hc
  have h1 := (List.dropWhile_sublist isPyWs).subset hc
  rw [List.mem_reverse] at h1
  exact (List.dropWhile_sublist isPyWs).subset h1

theorem cleanBarcode_no_fnc1 (s : List Char) :
    ∀ c, c ∈ cleanBarcode s → c ≠ FNC1 := by
  intro c hc
  simp only [cleanBarcode] at hc
  have hmem : c ∈ pyStrip (s.filter (fun c0 => c0 != FNC1)) := by
    split at hc
    · exact List.mem_of_mem_drop hc
    · split at hc
      · exact List.mem_of_mem_drop hc
      · exact hc
  have hfil := pyStrip_subset c hmem
  have := (List.mem_filter.mp hfil).2
  rw [bne_iff_ne] at this
  exact this

theorem applyAI_noFnc1 {res : ParseResult} {ai v : List Char}
    (hres : noFnc1Result res = true) (hv : cleanStr v = true) :
    noFnc1Result (applyAI res ai v) = true := by
  unfold noFnc1Result at hres
  simp only [Bool.and_eq_true] at hres
  obtain ⟨⟨⟨⟨⟨hraw, hgtin⟩, hlot⟩, hser⟩, hloc⟩, hexp⟩ := hres
  have hins := @dictInsert_all res.raw_ais ai v _ hraw hv
  rcases hlk : lookupAI ai with _ | d
  · simp only [applyAI, hlk, noFnc1Result, Bool.and_eq_true]
    exact ⟨⟨⟨⟨⟨hins, hgtin⟩, hlot⟩, hser⟩, hloc⟩, hexp⟩
  · obtain ⟨dl, dm, dt, dd, dn⟩ := d
    cases dt
    case gtin =>
      simp only [applyAI, hlk, noFnc1Result, Bool.and_eq_true]
      exact ⟨⟨⟨⟨⟨hins, hv⟩, hlot⟩, hser⟩, hloc⟩, hexp⟩
    case gtin_contained =>
      simp only [applyAI, hlk, noFnc1Result, Bool.and_eq_true]
      exact ⟨⟨⟨⟨⟨hins, hgtin⟩, hlot⟩, hser⟩, hloc⟩, hexp⟩
    case lot =>
      simp only [applyAI, hlk, noFnc1Result, Bool.and_eq_true]
      exact ⟨⟨⟨⟨⟨hins, hgtin⟩, hv⟩, hser⟩, hloc⟩, hexp⟩
    case serial =>
      simp only [applyAI, hlk, noFnc1Result, Bool.and_eq_true]
      exact ⟨⟨⟨⟨⟨hins, hgtin⟩, hlot⟩, hv⟩, hloc⟩, hexp⟩
    case date =>
      simp only [applyAI, hlk]
      by_cases h17 : ai = "17".toList
      · rw [if_pos h17]
        simp only [noFnc1Result, Bool.and_eq_true]
        exact ⟨⟨⟨⟨⟨hins, hgtin⟩, hlot⟩, hser⟩, hloc⟩, hv⟩
      · rw [if_neg h17]
        by_cases h11 : ai = "11".toList
        · rw [if_pos h11]
          simp only [noFnc1Result, Bool.and_eq_true]
          exact ⟨⟨⟨⟨⟨hins, hgtin⟩, hlot⟩, hser⟩, hloc⟩, hexp⟩
        · rw [if_neg h11]
          by_cases h15 : ai = "15".toList
          · rw [if_pos h15]
            simp only [noFnc1Result, Bool.and_eq_true]
            exact ⟨⟨⟨⟨⟨hins, hgtin⟩, hlot⟩, hser⟩, hloc⟩, hexp⟩
          · rw [if_neg h15]
            simp only [noFnc1Result, Bool.and_eq_true]
            exact ⟨⟨⟨⟨⟨hins, hgtin⟩, hlot⟩, hser⟩, hloc⟩, hexp⟩
    case weight_kg =>
      simp only [applyAI, hlk, noFnc1Result, Bool.and_eq_true]
      exact ⟨⟨⟨⟨⟨hins, hgtin⟩, hlot⟩, hser⟩, hloc⟩, hexp⟩
    case weight_lb =>
      simp only [applyAI, hlk, noFnc1Result, Bool.and_eq_true]
      exact ⟨⟨⟨⟨⟨hins, hgtin⟩, hlot⟩, hser⟩, hloc⟩, hexp⟩
    case quantity =>
      rcases hpi : pyInt v with _ | n
      · simp only [applyAI, hlk, hpi, noFnc1Result, Bool.and_eq_true]
        exact ⟨⟨⟨⟨⟨hins, hgtin⟩, hlot⟩, hser⟩, hloc⟩, hexp⟩
      · simp only [applyAI, hlk, hpi, noFnc1Result, Bool.and_eq_true]
        exact ⟨⟨⟨⟨⟨hins, hgtin⟩, hlot⟩, hser⟩, hloc⟩, hexp⟩
    case location =>
      simp only [applyAI, hlk, noFnc1Result, Bool.and_eq_true]
      exact ⟨⟨⟨⟨⟨hins, hgtin⟩, hlot⟩, hser⟩, hv⟩, hexp⟩
    case additional_id =>
      simp only [applyAI, hlk, noFnc1Result, Bool.and_eq_true]
      exact ⟨⟨⟨⟨⟨hins, hgtin⟩, hlot⟩, hser⟩, hloc⟩, hexp⟩
    case customer_part =>
      simp only [applyAI, hlk, noFnc1Result, Bool.and_eq_true]
      exact ⟨⟨⟨⟨⟨hins, hgtin⟩, hlot⟩, hser⟩, hloc⟩, hexp⟩
    case secondary_serial =>
      simp only [applyAI, hlk, noFnc1Result, Bool.and_eq_true]
      exact ⟨⟨⟨⟨⟨hins, hgtin⟩, hlot⟩, hser⟩, hloc⟩, hexp⟩
    case ref_source =>
      simp only [applyAI, hlk, noFnc1Result, Bool.and_eq_true]
      exact ⟨⟨⟨⟨⟨hins, hgtin⟩, hlot⟩, hser⟩, hloc⟩, hexp⟩

theorem parseLoop_noFnc1 :
    ∀ n : Nat, ∀ b : List Char, ∀ pos : Nat, ∀ res : ParseResult,
      b.length - pos ≤ n →
      (∀ c, c ∈ b → c ≠ FNC1) →
      noFnc1Result res = true →
      noFnc1Result (parseLoop b pos res) = true := by
  intro n
  induction n with
  | zero =>
    intro b pos res hn hb hres
    rw [parseLoop_of_oob (by omega)]
    exact hres
  | succ n ih =>
    intro b pos res hn hb hres
    by_cases hpos : pos < b.length
    · rcases hx : extractAI b pos with _ | t
      · rw [parseLoop_of_none hx]
        exact hres
      · obtain ⟨ai, v, np⟩ := t
        rw [parseLoop_step hpos hx]
        have hlt := extractAI_some_lt hx
        apply ih
        · omega
        · exact hb
        · apply applyAI_noFnc1 hres
          unfold cleanStr
          have hcon : v.contains FNC1 = false := by
            rw [Bool.eq_false_iff]
            intro hc
            exact hb FNC1 (extractAI_value_subset hx FNC1 (List.elem_iff.mp hc)) rfl
          rw [hcon]
          rfl
    · rw [parseLoop_of_oob hpos]
      exact hres

/-- Claim C1: `parse` is total, returning a result record for every input
(the never-raises contract holds by construction), and for every string whose
cleaned form (FNC1 characters removed, whitespace stripped, symbology prefix
dropped) starts with no recognizable AI code of length 2, 3 or 4, the result
is the all-empty record: `is_gs1 = false` and every scalar field `none`. -/
theorem c1_unrecognized_input_empty_result (s : List Char)
    (h : ∀ l, l ∈ ([2, 3, 4] : List Nat) →
      lookupAI ((cleanBarcode s).take l) = none) :
    parse s = defaultResult := by
  unfold parse
  by_cases hs : s.isEmpty
  · rw [if_pos hs]
  · rw [if_neg hs]
    have htry : ∀ l, l ∈ ([2, 3, 4] : List Nat) →
        tryAILen (cleanBarcode s) 0 l = none := by
      intro l hl
      rw [tryAILen_none_iff]
      right
      rw [List.drop_zero]
      exact h l hl
    exact parseLoop_of_none (extractAI_none_of_tries
      (htry 4 (by simp)) (htry 3 (by simp)) (htry 2 (by simp)))

theorem c1_witness :
    (∀ l, l ∈ ([2, 3, 4] : List Nat) →
      lookupAI ((cleanBarcode "hello world".toList).take l) = none) ∧
    parse "hello world".toList = defaultResult :=
  ⟨by decide, c1_unrecognized_input_empty_result _ (by decide)⟩

/-- Claim C2: at each cursor position the parser matches the 4-character
prefix of the remaining text against the AI table first, then the
3-character, then the 2-character prefix, the first (longest) match deciding
the extraction outright; when none of the three lengths matches a defined AI
code, extraction fails and the parse loop returns the accumulated result. -/
theorem c2_longest_ai_match_first :
    (∀ b : List Char, ∀ pos : Nat, ∀ d : AIDef,
       4 ≤ (b.drop pos).length → lookupAI ((b.drop pos).take 4) = some d →
       extractAI b pos = handleMatch b pos 4 ((b.drop pos).take 4) d) ∧
    (∀ b : List Char, ∀ pos : Nat, ∀ d : AIDef,
       ¬(4 ≤ (b.drop pos).length ∧ (lookupAI ((b.drop pos).take 4)).isSome) →
       3 ≤ (b.drop pos).length → lookupAI ((b.drop pos).take 3) = some d →
       extractAI b pos = handleMatch b pos 3 ((b.drop pos).take 3) d) ∧
    (∀ b : List Char, ∀ pos : Nat, ∀ d : AIDef,
       ¬(4 ≤ (b.drop pos).length ∧ (lookupAI ((b.drop pos).take 4)).isSome) →
       ¬(3 ≤ (b.drop pos).length ∧ (lookupAI ((b.drop pos).take 3)).isSome) →
       2 ≤ (b.drop pos).length → lookupAI ((b.drop pos).take 2) = some d →
       extractAI b pos = handleMatch b pos 2 ((b.drop pos).take 2) d) ∧
    (∀ b : List Char, ∀ pos : Nat,
       (∀ l, l ∈ ([2, 3, 4] : List Nat) → l ≤ (b.drop pos).length →
         lookupAI ((b.drop pos).take l) = none) →
       extractAI b pos = none) ∧
    (∀ b : List Char, ∀ pos : Nat, ∀ res : ParseResult,
       extractAI b pos = none → parseLoop b pos res = res) := by
  have hnone : ∀ b : List Char, ∀ pos l : Nat,
      ¬(l ≤ (b.drop pos).length ∧ (lookupAI ((b.drop pos).take l)).isSome) →
      tryAILen b pos l = none := by
    intro b pos l hno
    rw [tryAILen_none_iff]
    by_cases hlen : (b.drop pos).length < l
    · exact Or.inl hlen
    · right
      rcases hlk : lookupAI ((b.drop pos).take l) with _ | dl
      · rfl
      · exact absurd ⟨by omega, by rw [hlk]; rfl⟩ hno
  refine ⟨?_, ?_, ?_, ?_, ?_⟩
  · intro b pos d hlen hlk
    exact extractAI_of_try4 (tryAILen_some_of_lookup (by omega) hlk)
  · intro b pos d hno4 hlen hlk
    exact extractAI_of_try3 (hnone b pos 4 hno4)
      (tryAILen_some_of_lookup (by omega) hlk)
  · intro b pos d hno4 hno3 hlen hlk
    exact extractAI_of_try2 (hnone b pos 4 hno4) (hnone b pos 3 hno3)
      (tryAILen_some_of_lookup (by omega) hlk)
  · intro b pos h
    have ht : ∀ l, l ∈ ([2, 3, 4] : List Nat) → tryAILen b pos l = none := by
      intro l hl
      rw [tryAILen_none_iff]
      by_cases hlen : (b.drop pos).length < l
      · exact Or.inl hlen
      · exact Or.inr (h l hl (by omega))
    exact extractAI_none_of_tries (ht 4 (by simp)) (ht 3 (by simp)) (ht 2 (by simp))
  · intro b pos res h
    exact parseLoop_of_none h

theorem c2_witness :
    extractAI "3102001234".toList 0 =
      handleMatch "3102001234".toList 0 4 (("3102001234".toList.drop 0).take 4)
        ⟨some 6, none, AIType.weight_kg, some 2, "Net Weight (kg)"⟩ ∧
    extractAI "xx10A".toList 0 = none ∧
    parseLoop "xx10A".toList 0 defaultResult = defaultResult :=
  ⟨c2_longest_ai_match_first.1 _ 0 _ (by decide) (by decide),
   c2_longest_ai_match_first.2.2.2.1 _ 0 (by decide),
   c2_longest_ai_match_first.2.2.2.2 _ 0 defaultResult (by decide)⟩

/-- Claim C3: for a variable-length AI matched at the cursor, the value is
the substring from just after the AI code up to the first GS character
(code point 29) or until `max_length` characters are consumed, whichever
comes first; the cursor then advances past the value and additionally past
one GS exactly when a GS character immediately follows the value. -/
theorem c3_variable_length_extraction :
    ∀ b : List Char, ∀ pos : Nat, ∀ ai v : List Char, ∀ np : Nat, ∀ d : AIDef,
      extractAI b pos = some (ai, v, np) →
      lookupAI ai = some d → optTruthy d.length = false →
      v = (((b.drop pos).drop ai.length).takeWhile (fun c => c != GS)).take
            (d.max_length.getD 30) ∧
      np = pos + ai.length + v.length +
        (if (b.drop (pos + ai.length + v.length)).head? = some GS then 1 else 0) := by
  intro b pos ai v np d hx hd ht
  obtain ⟨l, hl, hlen, d', hlk, hhm⟩ := extractAI_shape hx
  have hai : ai = (b.drop pos).take l := handleMatch_fst hhm
  have hlai : ai.length = l := by
    rw [hai, List.length_take]
    omega
  rw [← hai] at hlk
  rw [hd] at hlk
  have hdd : d = d' := by injection hlk
  subst hdd
  simp only [handleMatch] at hhm
  rw [if_neg (by simp [ht])] at hhm
  have hex : ∃ ve, (match pyFind (b.drop pos) GS l with
      | none => min (l + d.max_length.getD 30) (b.drop pos).length
      | some f => min f (l + d.max_length.getD 30)) = ve ∧
      l ≤ ve ∧ ve ≤ (b.drop pos).length ∧
      ((b.drop pos).take ve).drop l =
        (((b.drop pos).drop l).takeWhile (fun c => c != GS)).take
          (d.max_length.getD 30) := by
    rcases hfi : findIdxFrom GS ((b.drop pos).drop l) with _ | fr
    · have hpf0 : pyFind (b.drop pos) GS l = none := by
        unfold pyFind
        rw [hfi]
        rfl
      refine ⟨min (l + d.max_length.getD 30) (b.drop pos).length,
        by rw [hpf0], by omega, by omega, ?_⟩
      rw [findIdxFrom_none hfi]
      rw [List.drop_take]
      rcases le_or_lt (l + d.max_length.getD 30) (b.drop pos).length with hcase | hcase
      · have hmin : min (l + d.max_length.getD 30) (b.drop pos).length - l =
            d.max_length.getD 30 := by omega
        rw [hmin]
      · have hmin : min (l + d.max_length.getD 30) (b.drop pos).length - l =
            (b.drop pos).length - l := by omega
        rw [hmin]
        have hdl : ((b.drop pos).drop l).length = (b.drop pos).length - l :=
          List.length_drop ..
        rw [← hdl, List.take_length]
        exact (List.take_of_length_le (by omega)).symm
    · obtain ⟨htw, hfrlen, -⟩ := findIdxFrom_some hfi
      have hdl : ((b.drop pos).drop l).length = (b.drop pos).length - l :=
        List.length_drop ..
      have hpf0 : pyFind (b.drop pos) GS l = some (fr + l) := by
        unfold pyFind
        rw [hfi]
        rfl
      refine ⟨min (fr + l) (l + d.max_length.getD 30),
        by rw [hpf0], by omega, by omega, ?_⟩
      rw [htw, List.take_take, List.drop_take]
      have hmin : min (fr + l) (l + d.max_length.getD 30) - l =
          min (d.max_length.getD 30) fr := by omega
      rw [hmin]
  obtain ⟨ve, hve_eq, hvel, hver, hA⟩ := hex
  rw [hve_eq] at hhm
  have hvl : (((b.drop pos).take ve).drop l).length = ve - l := by
    rw [List.length_drop, List.length_take]
    omega
  by_cases hc : (b.drop (pos + ve)).head? = some GS
  · rw [if_pos hc] at hhm
    simp only [Option.some.injEq, Prod.mk.injEq] at hhm
    obtain ⟨-, h2, h3⟩ := hhm
    subst h2
    rw [hlai]
    refine ⟨hA, ?_⟩
    rw [hvl]
    have harith : pos + l + (ve - l) = pos + ve := by omega
    rw [harith, if_pos hc]
    omega
  · rw [if_neg hc] at hhm
    simp only [Option.some.injEq, Prod.mk.injEq] at hhm
    obtain ⟨-, h2, h3⟩ := hhm
    subst h2
    rw [hlai]
    refine ⟨hA, ?_⟩
    rw [hvl]
    have harith : pos + l + (ve - l) = pos + ve := by omega
    rw [harith, if_neg hc]
    omega

theorem c3_witness :
    "ABC".toList =
      ((("10ABC\x1dXY".toList.drop 0).drop "10".toList.length).takeWhile
         (fun c => c != GS)).take
        ((⟨none, some 20, AIType.lot, none, "Lot/Batch Number"⟩ : AIDef).max_length.getD 30) ∧
    6 = 0 + "10".toList.length + "ABC".toList.length +
      (if ("10ABC\x1dXY".toList.drop
            (0 + "10".toList.length + "ABC".toList.length)).head? = some GS
       then 1 else 0) :=
  c3_variable_length_extraction "10ABC\x1dXY".toList 0 "10".toList "ABC".toList 6
    ⟨none, some 20, AIType.lot, none, "Lot/Batch Number"⟩
    (by decide) (by decide) (by decide)

/-- Claim C4: a successfully extracted fixed-length AI takes as value exactly
the next `length` characters after the AI code and advances the cursor past
them (so the full `length` characters were available); the abort result of
`_extract_ai` arises exactly when the matched AI is fixed-length and fewer
than `length` characters remain, no truncated value being produced; and on an
abort at any of the three match lengths the extraction yields nothing and the
parse loop returns exactly the previously accumulated result. -/
theorem c4_fixed_length_extraction :
    (∀ b : List Char, ∀ pos : Nat, ∀ ai v : List Char, ∀ np : Nat,
       ∀ d : AIDef, ∀ n : Nat,
       extractAI b pos = some (ai, v, np) →
       lookupAI ai = some d → d.length = some n → 0 < n →
       v = ((b.drop pos).take (ai.length + n)).drop ai.length ∧
       np = pos + ai.length + n ∧ ai.length + n ≤ (b.drop pos).length) ∧
    (∀ b : List Char, ∀ pos l : Nat,
       (tryAILen b pos l = some none ↔
        (l ≤ (b.drop pos).length ∧ ∃ d, lookupAI ((b.drop pos).take l) = some d ∧
         optTruthy d.length = true ∧
         (b.drop pos).length < l + d.length.getD 0))) ∧
    (∀ b : List Char, ∀ pos : Nat,
       tryAILen b pos 4 = some none → extractAI b pos = none) ∧
    (∀ b : List Char, ∀ pos : Nat, tryAILen b pos 4 = none →
       tryAILen b pos 3 = some none → extractAI b pos = none) ∧
    (∀ b : List Char, ∀ pos : Nat, tryAILen b pos 4 = none →
       tryAILen b pos 3 = none → tryAILen b pos 2 = some none →
       extractAI b pos = none) ∧
    (∀ b : List Char, ∀ pos : Nat, ∀ res : ParseResult,
       extractAI b pos = none → parseLoop b pos res = res) := by
  refine ⟨?_, ?_, ?_, ?_, ?_, ?_⟩
  · intro b pos ai v np d n hx hd hn h0
    obtain ⟨l, hl, hlen, d', hlk, hhm⟩ := extractAI_shape hx
    have hai : ai = (b.drop pos).take l := handleMatch_fst hhm
    have hlai : ai.length = l := by
      rw [hai, List.length_take]
      omega
    rw [← hai] at hlk
    rw [hd] at hlk
    have hdd : d = d' := by injection hlk
    subst hdd
    simp only [handleMatch] at hhm
    have ht : optTruthy d.length = true := by
      rw [hn]
      show (n != 0) = true
      simp only [bne_iff_ne, ne_eq]
      omega
    rw [if_pos ht] at hhm
    simp only [hn, Option.getD_some] at hhm
    by_cases htr : (b.drop pos).length < l + n
    · rw [if_pos htr] at hhm
      exact absurd hhm (by simp)
    · rw [if_neg htr] at hhm
      simp only [Option.some.injEq, Prod.mk.injEq] at hhm
      obtain ⟨-, h2, h3⟩ := hhm
      rw [hlai]
      exact ⟨h2.symm, by omega, by omega⟩
  · intro b pos l
    constructor
    · intro h
      unfold tryAILen at h
      by_cases hlen : (b.drop pos).length < l
      · rw [if_pos hlen] at h
        exact Option.noConfusion h
      · rw [if_neg hlen] at h
        rcases hlk : lookupAI ((b.drop pos).take l) with _ | d
        · rw [hlk] at h
          exact Option.noConfusion h
        · rw [hlk] at h
          have hh : handleMatch b pos l ((b.drop pos).take l) d = none := by
            injection h
          simp only [handleMatch] at hh
          by_cases ht : optTruthy d.length = true
          · rw [if_pos ht] at hh
            by_cases htr : (b.drop pos).length < l + d.length.getD 0
            · exact ⟨by omega, d, rfl, ht, htr⟩
            · rw [if_neg htr] at hh
              exact Option.noConfusion hh
          · rw [if_neg ht] at hh
            split at hh <;> exact Option.noConfusion hh
    · rintro ⟨hlen, d, hlk, ht, htr⟩
      unfold tryAILen
      rw [if_neg (by omega : ¬((b.drop pos).length < l)), hlk]
      have hh : handleMatch b pos l ((b.drop pos).take l) d = none := by
        simp only [handleMatch]
        rw [if_pos ht, if_pos htr]
      show some (handleMatch b pos l ((b.drop pos).take l) d) = some none
      rw [hh]
  · intro b pos h
    exact extractAI_of_try4 h
  · intro b pos h4 h3
    exact extractAI_of_try3 h4 h3
  · intro b pos h4 h3 h2
    exact extractAI_of_try2 h4 h3 h2
  · intro b pos res h
    exact parseLoop_of_none h

theorem c4_witness :
    ("12345678901234".toList =
       (("0112345678901234".toList.drop 0).take ("01".toList.length + 14)).drop
         "01".toList.length ∧
     16 = 0 + "01".toList.length + 14 ∧
     "01".toList.length + 14 ≤ ("0112345678901234".toList.drop 0).length) ∧
    extractAI "01123".toList 0 = none ∧
    parseLoop "01123".toList 0 defaultResult = defaultResult := by
  refine ⟨?_, ?_, ?_⟩
  · exact c4_fixed_length_extraction.1 "0112345678901234".toList 0 "01".toList
      "12345678901234".toList 16 ⟨some 14, none, AIType.gtin, none, "GTIN"⟩ 14
      (by decide) (by decide) (by decide) (by decide)
  · exact c4_fixed_length_extraction.2.2.2.2.1 _ 0 (by decide) (by decide) (by decide)
  · exact c4_fixed_length_extraction.2.2.2.2.2 _ 0 defaultResult
      (c4_fixed_length_extraction.2.2.2.2.1 _ 0 (by decide) (by decide) (by decide))

/-- Claim C7: EAN-13/EAN-8 validation accepts a (nonempty) stored value iff
its stripped form is all-digit, exactly 13 resp. 8 characters, and the check
digit `(10 - (weighted sum mod 10)) mod 10` (weight 1 at even 0-indexed
positions, 3 at odd, over all digits but the last) equals the final digit;
it fails closed on non-digit or wrong-length input, a 12-digit string being
rejected by the EAN-13 length test without any checksum computation; the
literal "4006381333931" passes the checksum and any other final digit
fails it. -/
theorem c7_ean_checksum_validation :
    (∀ s : List Char, s ≠ [] →
      (checkBarcodeFormat BType.ean13 s = none ↔
        (pyIsDigitStr (pyStrip s) = true ∧ (pyStrip s).length = 13 ∧
         eanCheckDigit ((pyStrip s).map digitVal) =
           ((pyStrip s).map digitVal).getLastD 0))) ∧
    (∀ s : List Char, s ≠ [] →
      (checkBarcodeFormat BType.ean8 s = none ↔
        (pyIsDigitStr (pyStrip s) = true ∧ (pyStrip s).length = 8 ∧
         eanCheckDigit ((pyStrip s).map digitVal) =
           ((pyStrip s).map digitVal).getLastD 0))) ∧
    (∀ s : List Char, pyIsDigitStr (pyStrip s) = true → (pyStrip s).length = 12 →
      checkBarcodeFormat BType.ean13 s =
        some (vErr "EAN-13 barcode must be exactly 13 digits: " (pyStrip s))) ∧
    validateEanChecksum "4006381333931".toList = true ∧
    (∀ n, n < 10 → n ≠ 1 →
      validateEanChecksum ("400638133393".toList ++ [Char.ofNat (48 + n)]) = false) := by
  refine ⟨?_, ?_, ?_, by decide, by decide⟩
  · intro s hs
    have hse : s.isEmpty = false := isEmpty_false_of_ne_nil hs
    unfold checkBarcodeFormat
    rw [if_neg (by simp [hse])]
    show (if !pyIsDigitStr (pyStrip s) || (pyStrip s).length ≠ 13 then
            some (vErr "EAN-13 barcode must be exactly 13 digits: " (pyStrip s))
          else if !validateEanChecksum (pyStrip s) then
            some (vErr "Invalid EAN-13 checksum for barcode: " (pyStrip s))
          else none) = none ↔ _
    by_cases hdig : pyIsDigitStr (pyStrip s) = true
    · by_cases hlen : (pyStrip s).length = 13
      · rw [if_neg (by simp [hdig, hlen])]
        by_cases hv : validateEanChecksum (pyStrip s) = true
        · rw [if_neg (by simp [hv])]
          exact iff_of_true rfl ⟨hdig, hlen, (validateEan_iff.mp hv).2⟩
        · rw [if_pos (by simp [Bool.not_eq_true] at hv ⊢; exact hv)]
          refine iff_of_false (by simp) ?_
          rintro ⟨-, -, hck⟩
          exact hv (validateEan_iff.mpr ⟨hdig, hck⟩)
      · rw [if_pos (by simp [hlen])]
        exact iff_of_false (by simp) (by rintro ⟨-, h2, -⟩; exact hlen h2)
    · rw [if_pos (by simp [Bool.not_eq_true] at hdig ⊢; simp [hdig])]
      exact iff_of_false (by simp) (by rintro ⟨h1, -, -⟩; exact hdig h1)
  · intro s hs
    have hse : s.isEmpty = false := isEmpty_false_of_ne_nil hs
    unfold checkBarcodeFormat
    rw [if_neg (by simp [hse])]
    show (if !pyIsDigitStr (pyStrip s) || (pyStrip s).length ≠ 8 then
            some (vErr "EAN-8 barcode must be exactly 8 digits: " (pyStrip s))
          else if !validateEanChecksum (pyStrip s) then
            some (vErr "Invalid EAN-8 checksum for barcode: " (pyStrip s))
          else none) = none ↔ _
    by_cases hdig : pyIsDigitStr (pyStrip s) = true
    · by_cases hlen : (pyStrip s).length = 8
      · rw [if_neg (by simp [hdig, hlen])]
        by_cases hv : validateEanChecksum (pyStrip s) = true
        · rw [if_neg (by simp [hv])]
          exact iff_of_true rfl ⟨hdig, hlen, (validateEan_iff.mp hv).2⟩
        · rw [if_pos (by simp [Bool.not_eq_true] at hv ⊢; exact hv)]
          refine iff_of_false (by simp) ?_
          rintro ⟨-, -, hck⟩
          exact hv (validateEan_iff.mpr ⟨hdig, hck⟩)
      · rw [if_pos (by simp [hlen])]
        exact iff_of_false (by simp) (by rintro ⟨-, h2, -⟩; exact hlen h2)
    · rw [if_pos (by simp [Bool.not_eq_true] at hdig ⊢; simp [hdig])]
      exact iff_of_false (by simp) (by rintro ⟨h1, -, -⟩; exact hdig h1)
  · intro s hdig hlen
    have hse : s.isEmpty = false := by
      cases s with
      | nil => simp [pyStrip, pyIsDigitStr] at hdig
      | cons a l => rfl
    unfold checkBarcodeFormat
    rw [if_neg (by simp [hse])]
    show (if !pyIsDigitStr (pyStrip s) || (pyStrip s).length ≠ 13 then
            some (vErr "EAN-13 barcode must be exactly 13 digits: " (pyStrip s))
          else if !validateEanChecksum (pyStrip s) then
            some (vErr "Invalid EAN-13 checksum for barcode: " (pyStrip s))
          else none) = _
    rw [if_pos (by simp [hlen])]

theorem c7_witness :
    (checkBarcodeFormat BType.ean13 "4006381333931".toList = none ↔
      (pyIsDigitStr (pyStrip "4006381333931".toList) = true ∧
       (pyStrip "4006381333931".toList).length = 13 ∧
       eanCheckDigit ((pyStrip "4006381333931".toList).map digitVal) =
         ((pyStrip "4006381333931".toList).map digitVal).getLastD 0)) ∧
    checkBarcodeFormat BType.ean13 "036000291452".toList =
      some (vErr "EAN-13 barcode must be exactly 13 digits: "
        (pyStrip "036000291452".toList)) :=
  ⟨c7_ean_checksum_validation.1 _ (by decide),
   c7_ean_checksum_validation.2.2.1 _ (by decide) (by decide)⟩

/-- Claim C8: UPC-A validation accepts a string iff it is all-digit, exactly
12 characters, and satisfies the mod-10 scheme with the weights swapped
relative to EAN (weight 3 at even 0-indexed positions, 1 at odd);
"036000291452" validates true, and the EAN weighting applied to the same
digits produces a different check digit, so the two algorithms differ (in
particular the EAN checksum helper rejects that string). -/
theorem c8_upc_checksum_validation :
    (∀ s : List Char, validateUpcChecksum s = true ↔
       (pyIsDigitStr s = true ∧ s.length = 12 ∧
        upcCheckDigit (s.map digitVal) = (s.map digitVal).getLastD 0)) ∧
    validateUpcChecksum "036000291452".toList = true ∧
    eanCheckDigit ("036000291452".toList.map digitVal) ≠
      upcCheckDigit ("036000291452".toList.map digitVal) ∧
    validateEanChecksum "036000291452".toList = false :=
  ⟨fun _ => validateUpc_iff, by decide, by decide, by decide⟩

theorem c8_witness :
    validateUpcChecksum "036000291452".toList = true ↔
      (pyIsDigitStr "036000291452".toList = true ∧
       ("036000291452".toList).length = 12 ∧
       upcCheckDigit ("036000291452".toList.map digitVal) =
         ("036000291452".toList.map digitVal).getLastD 0) :=
  c8_upc_checksum_validation.1 "036000291452".toList

/-- Claim C9: UPC-E validation is format-only, accepting a (nonempty) value
iff its stripped form is exactly 8 digits with no checksum ever applied; and
for every symbology, a failed format or checksum check produces a structured
validation failure whose message contains the symbology name and the
offending (stripped) value, while a passing value produces no failure. -/
theorem c9_upce_format_only_and_errors :
    (∀ s : List Char, s ≠ [] →
       (checkBarcodeFormat BType.upce s = none ↔
        (pyIsDigitStr (pyStrip s) = true ∧ (pyStrip s).length = 8))) ∧
    (∀ t : BType, ∀ s msg : List Char, checkBarcodeFormat t s = some msg →
       symName t <:+: msg ∧ pyStrip s <:+: msg) := by
  constructor
  · intro s hs
    have hse : s.isEmpty = false := isEmpty_false_of_ne_nil hs
    unfold checkBarcodeFormat
    rw [if_neg (by simp [hse])]
    show (if !pyIsDigitStr (pyStrip s) || (pyStrip s).length ≠ 8 then
            some (vErr "UPC-E barcode must be exactly 8 digits: " (pyStrip s))
          else none) = none ↔ _
    by_cases hdig : pyIsDigitStr (pyStrip s) = true
    · by_cases hlen : (pyStrip s).length = 8
      · rw [if_neg (by simp [hdig, hlen])]
        exact iff_of_true rfl ⟨hdig, hlen⟩
      · rw [if_pos (by simp [hlen])]
        exact iff_of_false (by simp) (by rintro ⟨-, h2⟩; exact hlen h2)
    · rw [if_pos (by simp [Bool.not_eq_true] at hdig ⊢; simp [hdig])]
      exact iff_of_false (by simp) (by rintro ⟨h1, -⟩; exact hdig h1)
  · intro t s msg h
    by_cases hse : s.isEmpty = true
    · unfold checkBarcodeFormat at h
      rw [if_pos hse] at h
      exact Option.noConfusion h
    · unfold checkBarcodeFormat at h
      rw [if_neg hse] at h
      cases t
      · -- ean13
        replace h : (if !pyIsDigitStr (pyStrip s) || (pyStrip s).length ≠ 13 then
            some (vErr "EAN-13 barcode must be exactly 13 digits: " (pyStrip s))
          else if !validateEanChecksum (pyStrip s) then
            some (vErr "Invalid EAN-13 checksum for barcode: " (pyStrip s))
          else none) = some msg := h
        split at h
        · have hm : vErr "EAN-13 barcode must be exactly 13 digits: " (pyStrip s)
              = msg := by injection h
          subst hm
          exact ⟨isInfixAppendRight (by decide) _,
            ⟨"EAN-13 barcode must be exactly 13 digits: ".toList, [], by simp [vErr]⟩⟩
        · split at h
          · have hm : vErr "Invalid EAN-13 checksum for barcode: " (pyStrip s)
                = msg := by injection h
            subst hm
            exact ⟨isInfixAppendRight (by decide) _,
              ⟨"Invalid EAN-13 checksum for barcode: ".toList, [], by simp [vErr]⟩⟩
          · exact Option.noConfusion h
      · -- ean8
        replace h : (if !pyIsDigitStr (pyStrip s) || (pyStrip s).length ≠ 8 then
            some (vErr "EAN-8 barcode must be exactly 8 digits: " (pyStrip s))
          else if !validateEanChecksum (pyStrip s) then
            some (vErr "Invalid EAN-8 checksum for barcode: " (pyStrip s))
          else none) = some msg := h
        split at h
        · have hm : vErr "EAN-8 barcode must be exactly 8 digits: " (pyStrip s)
              = msg := by injection h
          subst hm
          exact ⟨isInfixAppendRight (by decide) _,
            ⟨"EAN-8 barcode must be exactly 8 digits: ".toList, [], by simp [vErr]⟩⟩
        · split at h
          · have hm : vErr "Invalid EAN-8 checksum for barcode: " (pyStrip s)
                = msg := by injection h
            subst hm
            exact ⟨isInfixAppendRight (by decide) _,
              ⟨"Invalid EAN-8 checksum for barcode: ".toList, [], by simp [vErr]⟩⟩
          · exact Option.noConfusion h
      · -- upca
        replace h : (if !pyIsDigitStr (pyStrip s) || (pyStrip s).length ≠ 12 then
            some (vErr "UPC-A barcode must be exactly 12 digits: " (pyStrip s))
          else if !validateUpcChecksum (pyStrip s) then
            some (vErr "Invalid UPC-A checksum for barcode: " (pyStrip s))
          else none) = some msg := h
        split at h
        · have hm : vErr "UPC-A barcode must be exactly 12 digits: " (pyStrip s)
              = msg := by injection h
          subst hm
          exact ⟨isInfixAppendRight (by decide) _,
            ⟨"UPC-A barcode must be exactly 12 digits: ".toList, [], by simp [vErr]⟩⟩
        · split at h
          · have hm : vErr "Invalid UPC-A checksum for barcode: " (pyStrip s)
                = msg := by injection h
            subst hm
            exact ⟨isInfixAppendRight (by decide) _,
              ⟨"Invalid UPC-A checksum for barcode: ".toList, [], by simp [vErr]⟩⟩
          · exact Option.noConfusion h
      · -- upce
        replace h : (if !pyIsDigitStr (pyStrip s) || (pyStrip s).length ≠ 8 then
            some (vErr "UPC-E barcode must be exactly 8 digits: " (pyStrip s))
          else none) = some msg := h
        split at h
        · have hm : vErr "UPC-E barcode must be exactly 8 digits: " (pyStrip s)
              = msg := by injection h
          subst hm
          exact ⟨isInfixAppendRight (by decide) _,
            ⟨"UPC-E barcode must be exactly 8 digits: ".toList, [], by simp [vErr]⟩⟩
        · exact Option.noConfusion h
      · exact Option.noConfusion h
      · exact Option.noConfusion h
      · exact Option.noConfusion h
      · exact Option.noConfusion h
      · exact Option.noConfusion h

theorem c9_witness :
    (checkBarcodeFormat BType.upce "12345678".toList = none ↔
      (pyIsDigitStr (pyStrip "12345678".toList) = true ∧
       (pyStrip "12345678".toList).length = 8)) ∧
    (symName BType.upca <:+:
       vErr "UPC-A barcode must be exactly 12 digits: " "123".toList ∧
     pyStrip "123".toList <:+:
       vErr "UPC-A barcode must be exactly 12 digits: " "123".toList) :=
  ⟨c9_upce_format_only_and_errors.1 _ (by decide),
   by
    have happ := c9_upce_format_only_and_errors.2 BType.upca "123".toList
      (vErr "UPC-A barcode must be exactly 12 digits: " "123".toList) (by decide)
    have hstrip : pyStrip "123".toList = "123".toList := by decide
    rw [hstrip] at happ
    exact happ⟩

/-- Claim C6: for a weight AI the decoded weight equals the raw value read as
an integer divided by 10^decimal_places (AI "3102" value "001234" with two
decimal places gives 12.34); a non-numeric value gives `none` for just that
weight field while the AI is still recorded in `raw_ais` and the parse loop
continues from the new cursor position. -/
theorem c6_weight_decoding :
    (∀ v : List Char, ∀ dp : Nat, ∀ n : Int, pyInt v = some n →
       parseDecimal v dp = some ((n : ℚ) / 10 ^ dp)) ∧
    (∀ v : List Char, ∀ dp : Nat, pyInt v = none → parseDecimal v dp = none) ∧
    (∀ res : ParseResult, ∀ ai v : List Char, ∀ d : AIDef,
       lookupAI ai = some d → d.ai_type = AIType.weight_kg →
       applyAI res ai v = { res with
                            raw_ais := dictInsert res.raw_ais ai v
                            is_gs1 := true
                            weight_kg := parseDecimal v (d.decimal.getD 0) }) ∧
    (∀ res : ParseResult, ∀ ai v : List Char, ∀ d : AIDef,
       lookupAI ai = some d → d.ai_type = AIType.weight_lb →
       applyAI res ai v = { res with
                            raw_ais := dictInsert res.raw_ais ai v
                            is_gs1 := true
                            weight_lb := parseDecimal v (d.decimal.getD 0) }) ∧
    (∀ b : List Char, ∀ pos : Nat, ∀ res : ParseResult, ∀ ai v : List Char,
       ∀ np : Nat, pos < b.length → extractAI b pos = some (ai, v, np) →
       parseLoop b pos res = parseLoop b np (applyAI res ai v)) := by
  refine ⟨?_, ?_, ?_, ?_, ?_⟩
  · intro v dp n h
    unfold parseDecimal
    have hv : v.isEmpty = false := by
      cases v with
      | nil =>
        rw [show pyInt ([] : List Char) = none from rfl] at h
        exact Option.noConfusion h
      | cons a l => rfl
    rw [if_neg (by simp [hv]), h]
    show (if dp > 0 then some ((n : ℚ) / 10 ^ dp) else some ((n : ℚ))) = _
    by_cases hdp : dp > 0
    · rw [if_pos hdp]
    · rw [if_neg hdp]
      have hz : dp = 0 := by omega
      subst hz
      norm_num
  · intro v dp h
    unfold parseDecimal
    by_cases hv : v.isEmpty = true
    · rw [if_pos hv]
    · rw [if_neg hv, h]
  · intro res ai v d hlk ht
    simp only [applyAI, hlk, ht]
  · intro res ai v d hlk ht
    simp only [applyAI, hlk, ht]
  · intro b pos res ai v np hpos h
    exact parseLoop_step hpos h

theorem c6_witness :
    parseDecimal "001234".toList 2 = some ((1234 : ℚ) / 10 ^ 2) ∧
    ((1234 : ℚ) / 10 ^ 2 = 12.34) ∧
    parseDecimal "00C234".toList 2 = none ∧
    applyAI defaultResult "3102".toList "00C234".toList =
      { defaultResult with
        raw_ais := dictInsert defaultResult.raw_ais "3102".toList "00C234".toList
        is_gs1 := true
        weight_kg := parseDecimal "00C234".toList 2 } :=
  ⟨c6_weight_decoding.1 _ 2 1234 (by decide), by norm_num,
   c6_weight_decoding.2.1 _ 2 (by decide),
   c6_weight_decoding.2.2.1 defaultResult "3102".toList "00C234".toList
     ⟨some 6, none, AIType.weight_kg, some 2, "Net Weight (kg)"⟩ (by decide) rfl⟩

/-- Claim C5: `_parse_date` on a six-digit YYMMDD string follows the claimed
decoding — century pivot 00-49 to 2000-2049 and 50-99 to 1950-1999, day 00
replaced by the last day of the decoded month (December 00 hardcoded to 31,
other valid months to their actual last day, leap years included), and any
month/day combination invalid after the adjustment yielding `none` — while
any string whose length is not 6 yields `none`. -/
theorem c5_date_decoding :
    (∀ s : List Char, s.length ≠ 6 → parseDate s = none) ∧
    (∀ a b c d e f : Char,
       isAsciiDigit a = true → isAsciiDigit b = true → isAsciiDigit c = true →
       isAsciiDigit d = true → isAsciiDigit e = true → isAsciiDigit f = true →
       parseDate [a, b, c, d, e, f] =
         dateSpec (10 * digitVal a + digitVal b) (10 * digitVal c + digitVal d)
           (10 * digitVal e + digitVal f)) := by
  constructor
  · intro s h
    unfold parseDate
    rw [if_pos (by simp [bne_iff_ne, h])]
  · intro a b c d e f ha hb hc hd he hf
    unfold parseDate
    rw [if_neg (by simp)]
    rw [show [a, b, c, d, e, f].take 2 = [a, b] from rfl,
        show ([a, b, c, d, e, f].drop 2).take 2 = [c, d] from rfl,
        show ([a, b, c, d, e, f].drop 4).take 2 = [e, f] from rfl]
    rw [pyInt_two_digits ha hb, pyInt_two_digits hc hd, pyInt_two_digits he hf]
    exact parseDate_core (10 * digitVal a + digitVal b)
      (10 * digitVal c + digitVal d) (10 * digitVal e + digitVal f)
      (by have := digitVal_le_nine ha; have := digitVal_le_nine hb; omega)

theorem c5_witness :
    parseDate "200200".toList = dateSpec 20 2 0 ∧
    dateSpec 20 2 0 = some ⟨2020, 2, 29⟩ ∧
    parseDate "17011".toList = none :=
  ⟨c5_date_decoding.2 '2' '0' '0' '2' '0' '0' (by decide) (by decide) (by decide)
     (by decide) (by decide) (by decide),
   by decide,
   c5_date_decoding.1 _ (by decide)⟩

/-- Claim C10: `parse` removes every occurrence of the FNC1 stand-in
character U+00E8 from its input, not only a leading marker — parsing a string
equals parsing the string with all U+00E8 characters removed — and therefore
U+00E8 never appears in any `raw_ais` value or string scalar field of a
result. -/
theorem c10_fnc1_removed_everywhere :
    ∀ s : List Char,
      parse s = parse (s.filter (fun c => c != FNC1)) ∧
      noFnc1Result (parse s) = true := by
  intro s
  constructor
  · by_cases hs : s.isEmpty = true
    · have hnil : s = [] := List.isEmpty_iff.mp hs
      subst hnil
      rfl
    · unfold parse
      rw [if_neg hs]
      by_cases hf : (s.filter (fun c => c != FNC1)).isEmpty = true
      · rw [if_pos hf]
        have hfe : s.filter (fun c => c != FNC1) = [] := List.isEmpty_iff.mp hf
        have hcb : cleanBarcode s = [] := by
          simp only [cleanBarcode, hfe]
          rw [show pyStrip ([] : List Char) = [] from rfl]
          rw [if_neg (by decide), if_neg (by decide)]
        rw [hcb]
        exact parseLoop_of_oob (by simp)
      · rw [if_neg hf]
        have hcb : cleanBarcode s = cleanBarcode (s.filter (fun c => c != FNC1)) := by
          simp only [cleanBarcode]
          rw [List.filter_filter]
          have hpp : (fun a : Char => (a != FNC1) && (a != FNC1))
              = (fun a : Char => a != FNC1) := by
            funext a
            exact Bool.and_self _
          rw [hpp]
        rw [hcb]
  · unfold parse
    by_cases hs : s.isEmpty = true
    · rw [if_pos hs]
      rfl
    · rw [if_neg hs]
      exact parseLoop_noFnc1 (cleanBarcode s).length (cleanBarcode s) 0
        defaultResult (by omega) (cleanBarcode_no_fnc1 s) rfl

theorem c10_witness :
    parse "è0112345678901234è".toList =
      parse ("è0112345678901234è".toList.filter (fun c => c != FNC1)) ∧
    noFnc1Result (parse "è0112345678901234è".toList) = true :=
  c10_fnc1_removed_everywhere "è0112345678901234è".toList

end Gs1
